import Mathlib

/-
Verification development for the Copilot Studio streaming relay.

The definitions below are a shallow embedding of
`src/app/api/copilot/stream/route.ts` and `src/lib/config.ts`:

* strings are modelled as `List Char` (`"...".data` for literals);
* JavaScript truthiness of a string (`s && ...`, `s || d`) is modelled by
  emptiness tests on `List Char` and by `jsOr`;
* the two provider retry loops are modelled as structurally recursive
  functions whose second counter `remaining` tracks
  `maxRetries - attempt`.  In the source the `while (attempt <= maxRetries)`
  condition is always true when reached (attempt starts at 0 and is only
  incremented under `attempt < maxRetries`), so the loop only exits through
  a `return`; the embedding mirrors this by recursing while `remaining`
  allows and terminating otherwise, and the guard `attempt < maxRetries`
  of the source corresponds exactly to `remaining > 0`;
* the external provider is modelled as an oracle mapping the attempt index
  to the outcome of that outbound call, so the number of oracle
  consultations is the number of outbound provider attempts.
-/

/- ───────────────────────── Stream events (wire model) ───────────────────── -/

/-- The tagged union written on the SSE wire by the relay:
`{type:'start'}`, `{type:'data', content}`, `{type:'end', success, error?}`. -/
inductive StreamEvent where
  | start (command : List Char)
  | data (content : List Char)
  | endEv (success : Bool) (error : Option (List Char))

deriving instance DecidableEq for StreamEvent

/- ───────────────────────── Configuration (src/lib/config.ts) ────────────── -/

structure RetryConfig where
  maxRetries : Nat
  initialDelayMs : Nat
  backoffMultiplier : Nat

/-- `AI_RETRY_CONFIG` from config.ts lines 66-70. -/
def AI_RETRY_CONFIG : RetryConfig := ⟨3, 2000, 2⟩

structure GeminiProvider where
  defaultModel : List Char
  maxOutputTokens : Nat
  temperature : ℚ
  topP : ℚ
  topK : Nat

/-- The static (environment-independent) part of `AI_PROVIDERS.gemini`. -/
def AI_PROVIDERS_gemini : GeminiProvider :=
  ⟨"gemini-3-flash-preview".data, 8192, 0.7, 0.95, 64⟩

structure GitHubProvider where
  endpoint : List Char
  defaultModel : List Char
  maxTokens : Nat
  temperature : ℚ
  topP : ℚ

/-- The static (environment-independent) part of `AI_PROVIDERS.github`. -/
def AI_PROVIDERS_github : GitHubProvider :=
  ⟨"https://models.github.ai/inference".data, "mistral-ai/Codestral-2501".data, 4096, 0.4, 1⟩

/-- The process environment: the two credential variables read by config.ts. -/
structure Env where
  GEMINI_API_KEY : List Char
  GITHUB_TOKEN : List Char

deriving instance DecidableEq for Env

inductive ProviderId where
  | gemini
  | github

deriving instance DecidableEq for ProviderId

/-- The record returned by `getAIConfig` (provider `null` modelled as `none`). -/
structure AIConfigRes where
  apiKey : List Char
  model : List Char
  provider : Option ProviderId

deriving instance DecidableEq for AIConfigRes

/-- `AI_PROVIDERS[provider]?.apiKey` for a caller-supplied provider string:
the lookup yields the corresponding environment key for the two known ids
and `undefined` (modelled as the falsy `[]`) otherwise. -/
def providerKey (env : Env) (s : List Char) : List Char :=
  if s = "gemini".data then env.GEMINI_API_KEY
  else if s = "github".data then env.GITHUB_TOKEN
  else []

/-- The fall-through of `getAIConfig` (config.ts lines 82-90): prefer Gemini,
then GitHub, else the null config `{apiKey:'', model:'', provider:null}`. -/
def getAIConfigDefault (env : Env) : AIConfigRes :=
  if env.GEMINI_API_KEY ≠ [] then
    ⟨env.GEMINI_API_KEY, AI_PROVIDERS_gemini.defaultModel, some ProviderId.gemini⟩
  else if env.GITHUB_TOKEN ≠ [] then
    ⟨env.GITHUB_TOKEN, AI_PROVIDERS_github.defaultModel, some ProviderId.github⟩
  else ⟨[], [], none⟩

/-- `getAIConfig` (config.ts lines 75-91).  The test
`if (provider && AI_PROVIDERS[provider]?.apiKey)` requires the override to be
present, truthy (non-empty) and to resolve to a provider with a truthy key. -/
def getAIConfig (env : Env) (provider : Option (List Char)) : AIConfigRes :=
  match provider with
  | some s =>
      if s ≠ [] ∧ providerKey env s ≠ [] then
        if s = "gemini".data then
          ⟨env.GEMINI_API_KEY, AI_PROVIDERS_gemini.defaultModel, some ProviderId.gemini⟩
        else
          ⟨env.GITHUB_TOKEN, AI_PROVIDERS_github.defaultModel, some ProviderId.github⟩
      else getAIConfigDefault env
  | none => getAIConfigDefault env

/-- `COPILOT_COMMANDS[command]?.template` (config.ts lines 93-124):
`none` models an unknown command id (undefined lookup). -/
def commandTemplate (c : List Char) : Option (List Char) :=
  if c = "explain".data then some "Explain the following code:\n\n{code}".data
  else if c = "generate".data then some "Generate code for: {prompt}".data
  else if c = "fix".data then some "Fix the following code:\n\n{code}\n\nError: {error}".data
  else if c = "refactor".data then
    some "Refactor the following code to be more efficient:\n\n{code}".data
  else if c = "test".data then some "Generate unit tests for:\n\n{code}".data
  else if c = "docs".data then some "Generate documentation for:\n\n{code}".data
  else none

/- ───────────────────────── Prompt assembly (route.ts lines 82-98) ───────── -/

/-- ECMAScript `GetSubstitution` for a string search pattern (so with no
capture groups): the replacement string is scanned left to right for the
special patterns `$$` (a literal dollar), `$&` (the matched substring),
`$` followed by a backquote (the portion of the string before the match) and
`$` followed by a single quote (the portion after the match); any other `$`
is literal (with no capture groups, `$n` and `$<name>` are left as-is, and a
trailing lone `$` is literal). -/
def getSubstitution (matched before after : List Char) : List Char → List Char
  | [] => []
  | [c] => if c = '$' then ['$'] else [c]
  | c :: c2 :: rest2 =>
      if c = '$' then
        if c2 = '$' then '$' :: getSubstitution matched before after rest2
        else if c2 = '&' then matched ++ getSubstitution matched before after rest2
        else if c2 = '\x60' then before ++ getSubstitution matched before after rest2
        else if c2 = '\x27' then after ++ getSubstitution matched before after rest2
        else '$' :: getSubstitution matched before after (c2 :: rest2)
      else c :: getSubstitution matched before after (c2 :: rest2)

/-- The scanning loop of JavaScript `String.replace` with a plain (non-regex)
search pattern: find the first occurrence, accumulating in `before` the part
of the string already passed; on a match, splice in the `GetSubstitution` of
the replacement string (which may refer to the match, the prefix `before` and
the suffix after the match). -/
def replaceFirstFrom (pat rep : List Char) : List Char → List Char → List Char
  | before, [] =>
      if pat.isPrefixOf ([] : List Char) then
        before ++ getSubstitution pat before [] rep
      else before
  | before, c :: rest =>
      if pat.isPrefixOf (c :: rest) then
        before ++ getSubstitution pat before ((c :: rest).drop pat.length) rep ++
          (c :: rest).drop pat.length
      else replaceFirstFrom pat rep (before ++ [c]) rest

/-- JavaScript `s.replace(pat, rep)` with string arguments: replace the first
occurrence only, applying the ECMAScript replacement-pattern substitution to
`rep`. -/
def replaceFirst (s pat rep : List Char) : List Char :=
  replaceFirstFrom pat rep [] s

/-- JavaScript `s.includes(pat)`: does `pat` occur as a contiguous substring? -/
def occursIn (pat : List Char) : List Char → Bool
  | [] => pat.isPrefixOf ([] : List Char)
  | c :: rest => pat.isPrefixOf (c :: rest) || occursIn pat rest

/-- JavaScript `v || d` for an optional string value. -/
def jsOr (v : Option (List Char)) (d : List Char) : List Char :=
  match v with
  | some s => if s = [] then d else s
  | none => d

/-- The `context` object of a request body. -/
structure Ctx where
  fileName : Option (List Char)
  language : Option (List Char)
  fileContent : Option (List Char)
  error : Option (List Char)

deriving instance DecidableEq for Ctx

/-- route.ts lines 88-91: the three sequential first-occurrence replacements
applied to the command template. -/
def fillTemplate (t input errV : List Char) : List Char :=
  replaceFirst (replaceFirst (replaceFirst t "{code}".data input) "{prompt}".data input)
    "{error}".data errV

/-- route.ts lines 88-95: fill the template and, when the file content is
non-empty and not already contained in the prompt, append the delimited
`File:` block with a fenced code section. -/
def assemblePrompt (t input : List Char) (ctx : Ctx) : List Char :=
  let fileContent := jsOr ctx.fileContent []
  let fileName := jsOr ctx.fileName []
  let language := jsOr ctx.language "typescript".data
  let errV := jsOr ctx.error []
  let prompt := fillTemplate t input errV
  if fileContent ≠ [] ∧ occursIn fileContent prompt = false then
    prompt ++ "\n\nFile: ".data ++ fileName ++ "\n```".data ++ language ++ "\n".data ++
      fileContent ++ "\n```".data
  else prompt

/-- The claim-side reading of the merge rule: each command's template with its
placeholders filled from `input` and `context.error` (independently, not by
sequential textual replacement).  This definition follows the words of the
spec and of claim C9, to be compared with `assemblePrompt`. -/
def specFilledPrompt (cmd input errV : List Char) : Option (List Char) :=
  if cmd = "explain".data then some ("Explain the following code:\n\n".data ++ input)
  else if cmd = "generate".data then some ("Generate code for: ".data ++ input)
  else if cmd = "fix".data then
    some ("Fix the following code:\n\n".data ++ input ++ "\n\nError: ".data ++ errV)
  else if cmd = "refactor".data then
    some ("Refactor the following code to be more efficient:\n\n".data ++ input)
  else if cmd = "test".data then some ("Generate unit tests for:\n\n".data ++ input)
  else if cmd = "docs".data then some ("Generate documentation for:\n\n".data ++ input)
  else none

/-- The claim-side reading of the whole assembly: filled template plus the
conditional `File:` block ("when context.fileContent is non-empty and not
already contained in the filled template"). -/
def specAssembledPrompt (cmd input : List Char) (ctx : Ctx) : Option (List Char) :=
  (specFilledPrompt cmd input (jsOr ctx.error [])).map (fun p =>
    let fileContent := jsOr ctx.fileContent []
    let fileName := jsOr ctx.fileName []
    let language := jsOr ctx.language "typescript".data
    if fileContent ≠ [] ∧ occursIn fileContent p = false then
      p ++ "\n\nFile: ".data ++ fileName ++ "\n```".data ++ language ++ "\n".data ++
        fileContent ++ "\n```".data
    else p)

/- ───────────────────────── Session (route.ts lines 11-24) ───────────────── -/

/-- The session cookie as the relay can observe it: absent, unparsable JSON,
or a parsed record carrying `expiresAt`. -/
inductive CookieState where
  | noCookie
  | malformed
  | session (expiresAt : Int)

deriving instance DecidableEq for CookieState

/-- `getSession`: `null` when there is no cookie, when `JSON.parse` throws, or
when `Date.now() > session.expiresAt` (strict comparison). -/
def getSession (cookie : CookieState) (now : Int) : Option Int :=
  match cookie with
  | CookieState.noCookie => none
  | CookieState.malformed => none
  | CookieState.session expiresAt => if now > expiresAt then none else some expiresAt

/- ───────────────────────── Generation parameters (temperature) ──────────── -/

structure GeminiGenConfig where
  maxOutputTokens : Nat
  temperature : ℚ
  topP : ℚ
  topK : Nat

/-- route.ts lines 138-143: the generation config sent to Gemini;
`temperature: command === 'fix' ? 0.2 : geminiConfig.temperature`. -/
def geminiGenerationConfig (command : List Char) : GeminiGenConfig :=
  ⟨AI_PROVIDERS_gemini.maxOutputTokens,
   if command = "fix".data then 0.2 else AI_PROVIDERS_gemini.temperature,
   AI_PROVIDERS_gemini.topP,
   AI_PROVIDERS_gemini.topK⟩

structure GitHubRequestParams where
  model : List Char
  temperature : ℚ
  maxTokensParam : Nat

/-- route.ts lines 211-220: parameters of the GitHub Models call;
`temperature: command === 'fix' ? 0.2 : 0.4`, `max_tokens: 4096`. -/
def githubRequestParams (model command : List Char) : GitHubRequestParams :=
  ⟨model, if command = "fix".data then 0.2 else 0.4, 4096⟩

/- ───────────────────────── Gemini retry loop (route.ts 128-176) ─────────── -/

/-- The error object caught in the Gemini branch (`err.status`, `err.message`;
either may be absent). -/
structure GeminiErr where
  status : Option Nat
  message : Option (List Char)

deriving instance DecidableEq for GeminiErr

/-- One outbound Gemini attempt as observed by the loop: the non-empty and
empty text fragments yielded before the attempt either completed
(`error = none`) or threw (`error = some e`). -/
structure GeminiOutcome where
  chunks : List (List Char)
  error : Option GeminiErr

deriving instance DecidableEq for GeminiOutcome

/-- `err.message || 'Gemini stream failed'`. -/
def geminiErrMessage (e : GeminiErr) : List Char :=
  match e.message with
  | some m => if m = [] then "Gemini stream failed".data else m
  | none => "Gemini stream failed".data

/-- The `data` events of one attempt: each fragment with truthy (non-empty)
text is forwarded in order (route.ts lines 146-153). -/
def geminiDataEvents (chunks : List (List Char)) : List StreamEvent :=
  (chunks.filter (fun c => !c.isEmpty)).map StreamEvent.data

/-- The events, backoff delays and outbound-attempt count produced by a relay
invocation after the initial `start` event. -/
structure RelayRun where
  events : List StreamEvent
  delays : List Nat
  attempts : Nat

deriving instance DecidableEq for RelayRun

/-- Terminal failure of a Gemini attempt: forward the fragments already
emitted, then `end{success:false, error: err.message || ...}`. -/
def geminiFailRun (o : GeminiOutcome) (e : GeminiErr) : RelayRun :=
  ⟨geminiDataEvents o.chunks ++ [StreamEvent.endEv false (some (geminiErrMessage e))], [], 1⟩

/-- Successful Gemini attempt: forward the fragments, then `end{success:true}`. -/
def geminiSuccessRun (o : GeminiOutcome) : RelayRun :=
  ⟨geminiDataEvents o.chunks ++ [StreamEvent.endEv true none], [], 1⟩

/-- The Gemini attempt loop (route.ts lines 132-174).  `remaining` is
`maxRetries - attempt`; a caught error retries exactly when
`err.status === 429 && attempt < maxRetries`, waiting
`initialDelayMs * backoffMultiplier ^ attempt` first. -/
def geminiLoop (oracle : Nat → GeminiOutcome) (d m : Nat) : Nat → Nat → RelayRun
  | attempt, 0 =>
      match (oracle attempt).error with
      | none => geminiSuccessRun (oracle attempt)
      | some e => geminiFailRun (oracle attempt) e
  | attempt, r + 1 =>
      match (oracle attempt).error with
      | none => geminiSuccessRun (oracle attempt)
      | some e =>
          if e.status = some 429 then
            let next := geminiLoop oracle d m (attempt + 1) r
            ⟨geminiDataEvents (oracle attempt).chunks ++ next.events,
             d * m ^ attempt :: next.delays, next.attempts + 1⟩
          else geminiFailRun (oracle attempt) e

/-- `streamGemini`: emit `start`, then run the attempt loop with the
configured retry parameters. -/
def geminiRun (oracle : Nat → GeminiOutcome) (command : List Char) : RelayRun :=
  let l := geminiLoop oracle AI_RETRY_CONFIG.initialDelayMs AI_RETRY_CONFIG.backoffMultiplier
    0 AI_RETRY_CONFIG.maxRetries
  ⟨StreamEvent.start command :: l.events, l.delays, l.attempts⟩

/- ───────────────────────── GitHub Models loop (route.ts 204-270) ────────── -/

/-- One outbound GitHub Models attempt: an expected response with the
completed content string (`choices[0].message.content || ''`), an unexpected
response with its status string and optional error message, or a thrown
exception. -/
inductive GitHubOutcome where
  | ok (content : List Char)
  | unexpected (status : List Char) (message : Option (List Char))
  | thrown

deriving instance DecidableEq for GitHubOutcome

/-- `response.body?.error?.message || "API error (status)"`. -/
def githubErrMessage (status : List Char) (message : Option (List Char)) : List Char :=
  match message with
  | some m => if m = [] then "API error (".data ++ status ++ ")".data else m
  | none => "API error (".data ++ status ++ ")".data

/-- Fuel-indexed fixed-size chunking; the fuel is an upper bound on the input
length so the recursion is structural. -/
def chunkGo (size : Nat) : Nat → List Char → List (List Char)
  | _, [] => []
  | 0, _ :: _ => []
  | fuel + 1, c :: rest => (c :: rest).take size :: chunkGo size fuel ((c :: rest).drop size)

/-- route.ts lines 242-248: `for (let i = 0; i < content.length; i += chunkSize)
chunk = content.slice(i, i + chunkSize)` — successive fixed-size slices. -/
def chunkList (size : Nat) (s : List Char) : List (List Char) :=
  chunkGo size s.length s

/-- The GitHub Models attempt loop (route.ts lines 208-268).  An unexpected
response retries exactly when its status is `'429'` and attempts remain; a
thrown exception retries whenever attempts remain, whatever its cause. -/
def githubLoop (oracle : Nat → GitHubOutcome) (d m : Nat) : Nat → Nat → RelayRun
  | attempt, 0 =>
      match oracle attempt with
      | GitHubOutcome.ok content =>
          ⟨(chunkList 20 content).map StreamEvent.data ++ [StreamEvent.endEv true none], [], 1⟩
      | GitHubOutcome.unexpected status msg =>
          ⟨[StreamEvent.endEv false (some (githubErrMessage status msg))], [], 1⟩
      | GitHubOutcome.thrown =>
          ⟨[StreamEvent.endEv false (some "GitHub Models stream failed".data)], [], 1⟩
  | attempt, r + 1 =>
      match oracle attempt with
      | GitHubOutcome.ok content =>
          ⟨(chunkList 20 content).map StreamEvent.data ++ [StreamEvent.endEv true none], [], 1⟩
      | GitHubOutcome.unexpected status msg =>
          if status = "429".data then
            let next := githubLoop oracle d m (attempt + 1) r
            ⟨next.events, d * m ^ attempt :: next.delays, next.attempts + 1⟩
          else ⟨[StreamEvent.endEv false (some (githubErrMessage status msg))], [], 1⟩
      | GitHubOutcome.thrown =>
          let next := githubLoop oracle d m (attempt + 1) r
          ⟨next.events, d * m ^ attempt :: next.delays, next.attempts + 1⟩

/-- `streamGitHubModels`: emit `start`, then run the attempt loop with the
configured retry parameters. -/
def githubRun (oracle : Nat → GitHubOutcome) (command : List Char) : RelayRun :=
  let l := githubLoop oracle AI_RETRY_CONFIG.initialDelayMs AI_RETRY_CONFIG.backoffMultiplier
    0 AI_RETRY_CONFIG.maxRetries
  ⟨StreamEvent.start command :: l.events, l.delays, l.attempts⟩

/- ───────────────────────── POST handler (route.ts lines 52-113) ─────────── -/

/-- The request body as parsed from JSON (`none` fields model absent keys). -/
structure RequestBody where
  command : Option (List Char)
  input : Option (List Char)
  provider : Option (List Char)
  context : Option Ctx

deriving instance DecidableEq for RequestBody

/-- The handler's result: a plain JSON error response with its HTTP status, or
an opened event stream (with the run it will produce against the given
provider oracles). -/
inductive PostResult where
  | errorResponse (status : Nat) (message : List Char)
  | streamResponse (provider : ProviderId) (run : RelayRun)

deriving instance DecidableEq for PostResult

/-- Number of outbound provider attempts implied by a handler result: an error
response constructs no stream and performs no outbound call. -/
def providerAttempts : PostResult → Nat
  | PostResult.errorResponse _ _ => 0
  | PostResult.streamResponse _ run => run.attempts

/-- `POST` (route.ts lines 52-113), with the cookie store threaded through to
record that the handler never writes to it (`body = none` models a JSON parse
failure, reaching the outer catch).  Checks occur in source order: session,
body parse, provider configuration, then command validation. -/
def POST (cookie : CookieState) (now : Int) (env : Env) (body : Option RequestBody)
    (gOracle : Nat → GeminiOutcome) (ghOracle : Nat → GitHubOutcome) :
    PostResult × CookieState :=
  match getSession cookie now with
  | none => (PostResult.errorResponse 401 "Not authenticated".data, cookie)
  | some _ =>
      match body with
      | none => (PostResult.errorResponse 500 "Stream failed".data, cookie)
      | some b =>
          let aiConfig := getAIConfig env b.provider
          if aiConfig.apiKey = [] then
            (PostResult.errorResponse 500
              "No AI provider configured. Add GITHUB_TOKEN or GEMINI_API_KEY to your .env file.".data,
             cookie)
          else
            match b.command with
            | none => (PostResult.errorResponse 400 "Invalid command".data, cookie)
            | some cmd =>
                if cmd = [] then (PostResult.errorResponse 400 "Invalid command".data, cookie)
                else
                  match commandTemplate cmd with
                  | none => (PostResult.errorResponse 400 "Invalid command".data, cookie)
                  | some _t =>
                      if aiConfig.provider = some ProviderId.gemini then
                        (PostResult.streamResponse ProviderId.gemini (geminiRun gOracle cmd),
                         cookie)
                      else
                        (PostResult.streamResponse ProviderId.github (githubRun ghOracle cmd),
                         cookie)

/-- An invalid `command` field: missing, empty (falsy), or not a key of
`COPILOT_COMMANDS`. -/
def invalidCommandField (oc : Option (List Char)) : Prop :=
  match oc with
  | none => True
  | some c => c = [] ∨ commandTemplate c = none

/-- Rate-limit signal in the Gemini branch: a caught error with
`status === 429`. -/
def geminiRateLimited (o : GeminiOutcome) : Bool :=
  match o.error with
  | some e => e.status = some 429
  | none => false

/-- Rate-limit signal in the GitHub branch: an unexpected response with
status string `'429'`. -/
def githubRateLimited : GitHubOutcome → Bool
  | GitHubOutcome.unexpected status _ => status = "429".data
  | _ => false

/-- Did this GitHub attempt return a completed (expected) response? -/
def githubOk : GitHubOutcome → Bool
  | GitHubOutcome.ok _ => true
  | _ => false

/- ───────────────────────── Lemmas: replaceFirst ─────────────────────────── -/

theorem getSubstitution_no_dollar (matched before after : List Char) :
    ∀ rep : List Char, ('$' : Char) ∉ rep →
      getSubstitution matched before after rep = rep := by
  intro rep
  induction rep with
  | nil => intro _; rfl
  | cons c rest ih =>
      intro h
      rw [List.mem_cons] at h
      push_neg at h
      have hc : ¬ c = '$' := fun he => h.1 he.symm
      cases rest with
      | nil => simp [getSubstitution, hc]
      | cons c2 rest2 => simp [getSubstitution, hc, ih h.2]

theorem replaceFirstFrom_not_mem (x : Char) (ps rep : List Char) :
    ∀ s before : List Char, x ∉ s →
      replaceFirstFrom (x :: ps) rep before s = before ++ s := by
  intro s
  induction s with
  | nil =>
      intro before _
      simp [replaceFirstFrom, List.isPrefixOf]
  | cons c rest ih =>
      intro before h
      rw [List.mem_cons] at h
      push_neg at h
      have hx : (x :: ps).isPrefixOf (c :: rest) = false := by
        simp [List.isPrefixOf, h.1]
      simp [replaceFirstFrom, hx, ih (before ++ [c]) h.2]

theorem replaceFirstFrom_no_occur (pat rep : List Char) :
    ∀ s before : List Char, occursIn pat s = false →
      replaceFirstFrom pat rep before s = before ++ s := by
  intro s
  induction s with
  | nil =>
      intro before h
      simp [occursIn] at h
      simp [replaceFirstFrom, h]
  | cons c rest ih =>
      intro before h
      simp [occursIn] at h
      simp [replaceFirstFrom, h.1, ih (before ++ [c]) h.2]

theorem replaceFirstFrom_append (x : Char) (ps rep s : List Char) :
    ∀ a before : List Char, x ∉ a →
      replaceFirstFrom (x :: ps) rep before (a ++ s) =
        replaceFirstFrom (x :: ps) rep (before ++ a) s := by
  intro a
  induction a with
  | nil =>
      intro before _
      simp
  | cons c a' ih =>
      intro before h
      rw [List.mem_cons] at h
      push_neg at h
      have hx : (x :: ps).isPrefixOf (c :: (a' ++ s)) = false := by
        simp [List.isPrefixOf, h.1]
      simp only [List.cons_append]
      simp [replaceFirstFrom, hx, ih (before ++ [c]) h.2, List.append_assoc]

theorem isPrefixOf_append_self : ∀ p b : List Char, p.isPrefixOf (p ++ b) = true := by
  intro p b
  induction p with
  | nil => simp [List.isPrefixOf]
  | cons c p' ih => simp [List.isPrefixOf, ih]

theorem list_drop_append_self : ∀ p q : List Char, (p ++ q).drop p.length = q := by
  intro p q
  induction p with
  | nil => rfl
  | cons c p ih => simpa using ih

theorem replaceFirstFrom_match (x : Char) (p' b before rep : List Char) :
    replaceFirstFrom (x :: p') rep before ((x :: p') ++ b) =
      before ++ getSubstitution (x :: p') before b rep ++ b := by
  have hpre : (x :: p').isPrefixOf ((x :: p') ++ b) = true := isPrefixOf_append_self (x :: p') b
  have hd : (x :: (p' ++ b)).drop (x :: p').length = b := list_drop_append_self (x :: p') b
  show replaceFirstFrom (x :: p') rep before (x :: (p' ++ b)) = _
  simp only [replaceFirstFrom]
  split
  · rw [hd]
  · rename_i hfalse
    exact absurd hpre hfalse

theorem replaceFirstFrom_match_end (x : Char) (p' before rep : List Char) :
    replaceFirstFrom (x :: p') rep before (x :: p') =
      before ++ getSubstitution (x :: p') before [] rep := by
  have h := replaceFirstFrom_match x p' [] before rep
  simpa using h

theorem replaceFirst_fill (x : Char) (p' b pre rep : List Char)
    (hpre : x ∉ pre) (hrep : ('$' : Char) ∉ rep) :
    replaceFirst (pre ++ ((x :: p') ++ b)) (x :: p') rep = pre ++ (rep ++ b) := by
  unfold replaceFirst
  rw [replaceFirstFrom_append x p' rep ((x :: p') ++ b) pre [] hpre]
  simp only [List.nil_append]
  rw [replaceFirstFrom_match x p' b pre rep]
  rw [getSubstitution_no_dollar (x :: p') pre b rep hrep]
  rw [List.append_assoc]

theorem replaceFirst_fill_end (x : Char) (p' pre rep : List Char)
    (hpre : x ∉ pre) (hrep : ('$' : Char) ∉ rep) :
    replaceFirst (pre ++ (x :: p')) (x :: p') rep = pre ++ rep := by
  have h := replaceFirst_fill x p' [] pre rep hpre hrep
  simpa using h

theorem replaceFirst_head_not_mem (x : Char) (ps rep s : List Char) (h : x ∉ s) :
    replaceFirst s (x :: ps) rep = s := by
  unfold replaceFirst
  rw [replaceFirstFrom_not_mem x ps rep s [] h]
  exact List.nil_append s

theorem replaceFirst_no_occur (pat rep s : List Char) (h : occursIn pat s = false) :
    replaceFirst s pat rep = s := by
  unfold replaceFirst
  rw [replaceFirstFrom_no_occur pat rep s [] h]
  exact List.nil_append s

/- ───────────────────────── Lemmas: fixed-size chunking ──────────────────── -/

theorem chunkGo_nil (size fuel : Nat) : chunkGo size fuel [] = [] := by
  cases fuel <;> rfl

theorem chunkGo_flatten (size : Nat) (hsize : 1 ≤ size) :
    ∀ (fuel : Nat) (s : List Char), s.length ≤ fuel → (chunkGo size fuel s).flatten = s := by
  intro fuel
  induction fuel with
  | zero =>
      intro s hs
      cases s with
      | nil => simp [chunkGo]
      | cons c rest => simp at hs
  | succ fuel ih =>
      intro s hs
      cases s with
      | nil => simp [chunkGo]
      | cons c rest =>
          have hlen : ((c :: rest).drop size).length ≤ fuel := by
            simp only [List.length_drop, List.length_cons] at *
            omega
          simp only [chunkGo, List.flatten_cons, ih _ hlen, List.take_append_drop]

theorem chunkGo_mem (size : Nat) (hsize : 1 ≤ size) :
    ∀ (fuel : Nat) (s : List Char), ∀ ch ∈ chunkGo size fuel s, ch.length ≤ size ∧ ch ≠ [] := by
  intro fuel
  induction fuel with
  | zero =>
      intro s ch hch
      cases s with
      | nil => simp [chunkGo] at hch
      | cons c rest => simp [chunkGo] at hch
  | succ fuel ih =>
      intro s ch hch
      cases s with
      | nil => simp [chunkGo] at hch
      | cons c rest =>
          simp only [chunkGo, List.mem_cons] at hch
          rcases hch with h | h
          · subst h
            constructor
            · simp only [List.length_take, List.length_cons]
              omega
            · intro hnil
              have : ((c :: rest).take size).length = 0 := by rw [hnil]; rfl
              simp only [List.length_take, List.length_cons] at this
              omega
          · exact ih _ ch h

theorem chunkGo_dropLast (size : Nat) (hsize : 1 ≤ size) :
    ∀ (fuel : Nat) (s : List Char), ∀ ch ∈ (chunkGo size fuel s).dropLast, ch.length = size := by
  intro fuel
  induction fuel with
  | zero =>
      intro s ch hch
      cases s with
      | nil => simp [chunkGo] at hch
      | cons c rest => simp [chunkGo] at hch
  | succ fuel ih =>
      intro s ch hch
      cases s with
      | nil => simp [chunkGo] at hch
      | cons c rest =>
          rw [chunkGo] at hch
          cases hrec : chunkGo size fuel ((c :: rest).drop size) with
          | nil => rw [hrec] at hch; simp at hch
          | cons y ys =>
              rw [hrec] at hch
              have hdrop_ne : (c :: rest).drop size ≠ [] := by
                intro hd
                rw [hd, chunkGo_nil] at hrec
                exact List.noConfusion hrec
              have hlong : size ≤ (c :: rest).length := by
                by_contra hlt
                push_neg at hlt
                exact hdrop_ne (List.drop_eq_nil_of_le (Nat.le_of_lt hlt))
              simp only [List.dropLast_cons₂, List.mem_cons] at hch
              rcases hch with h | h
              · subst h
                simp only [List.length_take, List.length_cons]
                simp only [List.length_cons] at hlong
                omega
              · exact ih _ ch (by rw [hrec]; exact h)

theorem chunkList_flatten (s : List Char) : (chunkList 20 s).flatten = s :=
  chunkGo_flatten 20 (by omega) s.length s (Nat.le_refl _)

theorem chunkList_mem (s : List Char) :
    ∀ ch ∈ chunkList 20 s, ch.length ≤ 20 ∧ ch ≠ [] :=
  chunkGo_mem 20 (by omega) s.length s

theorem chunkList_dropLast (s : List Char) :
    ∀ ch ∈ (chunkList 20 s).dropLast, ch.length = 20 :=
  chunkGo_dropLast 20 (by omega) s.length s

/- ───────────────────────── Lemmas: loop single steps ────────────────────── -/

theorem geminiLoop_error_none (oracle : Nat → GeminiOutcome) (d m a r : Nat)
    (h : (oracle a).error = none) :
    geminiLoop oracle d m a r = geminiSuccessRun (oracle a) := by
  cases r <;> simp [geminiLoop, h]

theorem geminiLoop_fail (oracle : Nat → GeminiOutcome) (d m a r : Nat) (e : GeminiErr)
    (h : (oracle a).error = some e) (hs : e.status ≠ some 429) :
    geminiLoop oracle d m a r = geminiFailRun (oracle a) e := by
  cases r <;> simp [geminiLoop, h, hs]

theorem geminiLoop_exhausted (oracle : Nat → GeminiOutcome) (d m a : Nat) (e : GeminiErr)
    (h : (oracle a).error = some e) :
    geminiLoop oracle d m a 0 = geminiFailRun (oracle a) e := by
  simp [geminiLoop, h]

theorem geminiLoop_retry (oracle : Nat → GeminiOutcome) (d m a r : Nat) (e : GeminiErr)
    (h : (oracle a).error = some e) (hs : e.status = some 429) :
    geminiLoop oracle d m a (r + 1) =
      ⟨geminiDataEvents (oracle a).chunks ++ (geminiLoop oracle d m (a + 1) r).events,
       d * m ^ a :: (geminiLoop oracle d m (a + 1) r).delays,
       (geminiLoop oracle d m (a + 1) r).attempts + 1⟩ := by
  simp [geminiLoop, h, hs]

theorem githubLoop_ok (oracle : Nat → GitHubOutcome) (d m a r : Nat) (content : List Char)
    (h : oracle a = GitHubOutcome.ok content) :
    githubLoop oracle d m a r =
      ⟨(chunkList 20 content).map StreamEvent.data ++ [StreamEvent.endEv true none], [], 1⟩ := by
  cases r <;> simp [githubLoop, h]

theorem githubLoop_unexpected_non429 (oracle : Nat → GitHubOutcome) (d m a r : Nat)
    (status : List Char) (msg : Option (List Char))
    (h : oracle a = GitHubOutcome.unexpected status msg) (hs : status ≠ "429".data) :
    githubLoop oracle d m a r =
      ⟨[StreamEvent.endEv false (some (githubErrMessage status msg))], [], 1⟩ := by
  cases r <;> simp [githubLoop, h, hs]

theorem githubLoop_unexpected_exhausted (oracle : Nat → GitHubOutcome) (d m a : Nat)
    (status : List Char) (msg : Option (List Char))
    (h : oracle a = GitHubOutcome.unexpected status msg) :
    githubLoop oracle d m a 0 =
      ⟨[StreamEvent.endEv false (some (githubErrMessage status msg))], [], 1⟩ := by
  simp [githubLoop, h]

theorem githubLoop_retry429 (oracle : Nat → GitHubOutcome) (d m a r : Nat)
    (msg : Option (List Char)) (h : oracle a = GitHubOutcome.unexpected "429".data msg) :
    githubLoop oracle d m a (r + 1) =
      ⟨(githubLoop oracle d m (a + 1) r).events,
       d * m ^ a :: (githubLoop oracle d m (a + 1) r).delays,
       (githubLoop oracle d m (a + 1) r).attempts + 1⟩ := by
  simp [githubLoop, h]

theorem githubLoop_thrown_exhausted (oracle : Nat → GitHubOutcome) (d m a : Nat)
    (h : oracle a = GitHubOutcome.thrown) :
    githubLoop oracle d m a 0 =
      ⟨[StreamEvent.endEv false (some "GitHub Models stream failed".data)], [], 1⟩ := by
  simp [githubLoop, h]

theorem githubLoop_thrown_retry (oracle : Nat → GitHubOutcome) (d m a r : Nat)
    (h : oracle a = GitHubOutcome.thrown) :
    githubLoop oracle d m a (r + 1) =
      ⟨(githubLoop oracle d m (a + 1) r).events,
       d * m ^ a :: (githubLoop oracle d m (a + 1) r).delays,
       (githubLoop oracle d m (a + 1) r).attempts + 1⟩ := by
  simp [githubLoop, h]

/- ───────────────────────── Lemmas: event-sequence shape ─────────────────── -/

theorem geminiLoop_shape (oracle : Nat → GeminiOutcome) (d m : Nat) :
    ∀ r a, ∃ (ds : List (List Char)) (b : Bool) (e : Option (List Char)),
      (geminiLoop oracle d m a r).events = ds.map StreamEvent.data ++ [StreamEvent.endEv b e] := by
  intro r
  induction r with
  | zero =>
      intro a
      cases h : (oracle a).error with
      | none =>
          refine ⟨(oracle a).chunks.filter (fun c => !c.isEmpty), true, none, ?_⟩
          simp [geminiLoop_error_none oracle d m a 0 h, geminiSuccessRun, geminiDataEvents]
      | some e =>
          refine ⟨(oracle a).chunks.filter (fun c => !c.isEmpty), false,
            some (geminiErrMessage e), ?_⟩
          simp [geminiLoop_exhausted oracle d m a e h, geminiFailRun, geminiDataEvents]
  | succ r ih =>
      intro a
      cases h : (oracle a).error with
      | none =>
          refine ⟨(oracle a).chunks.filter (fun c => !c.isEmpty), true, none, ?_⟩
          simp [geminiLoop_error_none oracle d m a (r + 1) h, geminiSuccessRun, geminiDataEvents]
      | some e =>
          by_cases hs : e.status = some 429
          · obtain ⟨ds, b, ev, hds⟩ := ih (a + 1)
            refine ⟨(oracle a).chunks.filter (fun c => !c.isEmpty) ++ ds, b, ev, ?_⟩
            simp [geminiLoop_retry oracle d m a r e h hs, geminiDataEvents, hds,
              List.map_append, List.append_assoc]
          · refine ⟨(oracle a).chunks.filter (fun c => !c.isEmpty), false,
              some (geminiErrMessage e), ?_⟩
            simp [geminiLoop_fail oracle d m a (r + 1) e h hs, geminiFailRun, geminiDataEvents]

theorem githubLoop_shape (oracle : Nat → GitHubOutcome) (d m : Nat) :
    ∀ r a, ∃ (ds : List (List Char)) (b : Bool) (e : Option (List Char)),
      (githubLoop oracle d m a r).events = ds.map StreamEvent.data ++ [StreamEvent.endEv b e] := by
  intro r
  induction r with
  | zero =>
      intro a
      cases h : oracle a with
      | ok content =>
          exact ⟨chunkList 20 content, true, none, by simp [githubLoop_ok oracle d m a 0 content h]⟩
      | unexpected status msg =>
          exact ⟨[], false, some (githubErrMessage status msg),
            by simp [githubLoop_unexpected_exhausted oracle d m a status msg h]⟩
      | thrown =>
          exact ⟨[], false, some "GitHub Models stream failed".data,
            by simp [githubLoop_thrown_exhausted oracle d m a h]⟩
  | succ r ih =>
      intro a
      cases h : oracle a with
      | ok content =>
          exact ⟨chunkList 20 content, true, none,
            by simp [githubLoop_ok oracle d m a (r + 1) content h]⟩
      | unexpected status msg =>
          by_cases hs : status = "429".data
          · obtain ⟨ds, b, ev, hds⟩ := ih (a + 1)
            subst hs
            exact ⟨ds, b, ev, by simp [githubLoop_retry429 oracle d m a r msg h, hds]⟩
          · exact ⟨[], false, some (githubErrMessage status msg),
              by simp [githubLoop_unexpected_non429 oracle d m a (r + 1) status msg h hs]⟩
      | thrown =>
          obtain ⟨ds, b, ev, hds⟩ := ih (a + 1)
          exact ⟨ds, b, ev, by simp [githubLoop_thrown_retry oracle d m a r h, hds]⟩

/- ───────────────────────── Lemmas: exhausted rate limiting (C4) ─────────── -/

theorem geminiRateLimited_elim (o : GeminiOutcome) (h : geminiRateLimited o = true) :
    ∃ e : GeminiErr, o.error = some e ∧ e.status = some 429 := by
  cases he : o.error with
  | none => simp [geminiRateLimited, he] at h
  | some e =>
      refine ⟨e, rfl, ?_⟩
      simpa [geminiRateLimited, he] using h

theorem githubRateLimited_elim (o : GitHubOutcome) (h : githubRateLimited o = true) :
    ∃ msg : Option (List Char), o = GitHubOutcome.unexpected "429".data msg := by
  cases o with
  | ok content => simp [githubRateLimited] at h
  | thrown => simp [githubRateLimited] at h
  | unexpected status msg =>
      have : status = "429".data := by simpa [githubRateLimited] using h
      exact ⟨msg, by rw [this]⟩

theorem geminiLoop_allRateLimited (oracle : Nat → GeminiOutcome) (d m : Nat) :
    ∀ r a, (∀ i, i ≤ a + r → geminiRateLimited (oracle i) = true) →
      (geminiLoop oracle d m a r).attempts = r + 1 ∧
      ∃ (ds : List (List Char)) (msg : List Char),
        (geminiLoop oracle d m a r).events =
          ds.map StreamEvent.data ++ [StreamEvent.endEv false (some msg)] := by
  intro r
  induction r with
  | zero =>
      intro a h
      obtain ⟨e, he, _⟩ := geminiRateLimited_elim (oracle a) (h a (by omega))
      rw [geminiLoop_exhausted oracle d m a e he]
      refine ⟨rfl, (oracle a).chunks.filter (fun c => !c.isEmpty), geminiErrMessage e, ?_⟩
      simp [geminiFailRun, geminiDataEvents]
  | succ r ih =>
      intro a h
      obtain ⟨e, he, hs⟩ := geminiRateLimited_elim (oracle a) (h a (by omega))
      obtain ⟨ihA, ds, msg, ihE⟩ := ih (a + 1) (fun i hi => h i (by omega))
      rw [geminiLoop_retry oracle d m a r e he hs]
      refine ⟨by simpa using ihA, (oracle a).chunks.filter (fun c => !c.isEmpty) ++ ds, msg, ?_⟩
      simp [geminiDataEvents, ihE, List.map_append, List.append_assoc]

theorem githubLoop_allRateLimited (oracle : Nat → GitHubOutcome) (d m : Nat) :
    ∀ r a, (∀ i, i ≤ a + r → githubRateLimited (oracle i) = true) →
      (githubLoop oracle d m a r).attempts = r + 1 ∧
      ∃ msg : List Char,
        (githubLoop oracle d m a r).events = [StreamEvent.endEv false (some msg)] := by
  intro r
  induction r with
  | zero =>
      intro a h
      obtain ⟨msg, he⟩ := githubRateLimited_elim (oracle a) (h a (by omega))
      rw [githubLoop_unexpected_exhausted oracle d m a _ msg he]
      exact ⟨rfl, githubErrMessage "429".data msg, rfl⟩
  | succ r ih =>
      intro a h
      obtain ⟨msg, he⟩ := githubRateLimited_elim (oracle a) (h a (by omega))
      obtain ⟨ihA, msg', ihE⟩ := ih (a + 1) (fun i hi => h i (by omega))
      rw [githubLoop_retry429 oracle d m a r msg he]
      exact ⟨by simpa using ihA, msg', ihE⟩

/- ───────────────────────── Lemmas: backoff schedule (C5) ────────────────── -/

theorem geminiLoop_backoff (oracle : Nat → GeminiOutcome) (d m k : Nat)
    (hRL : ∀ i, i < k → geminiRateLimited (oracle i) = true)
    (hk : (oracle k).error = none) :
    ∀ r a, a ≤ k → k - a ≤ r →
      (geminiLoop oracle d m a r).delays =
        (List.range' a (k - a)).map (fun i => d * m ^ i) ∧
      (geminiLoop oracle d m a r).attempts = (k - a) + 1 ∧
      ∃ ds : List (List Char),
        (geminiLoop oracle d m a r).events =
          ds.map StreamEvent.data ++ [StreamEvent.endEv true none] := by
  intro r
  induction r with
  | zero =>
      intro a hak hr
      have hae : a = k := by omega
      subst hae
      rw [geminiLoop_error_none oracle d m a 0 hk]
      refine ⟨by simp [geminiSuccessRun], by simp [geminiSuccessRun],
        (oracle a).chunks.filter (fun c => !c.isEmpty), ?_⟩
      simp [geminiSuccessRun, geminiDataEvents]
  | succ r ih =>
      intro a hak hr
      by_cases hae : a = k
      · subst hae
        rw [geminiLoop_error_none oracle d m a (r + 1) hk]
        refine ⟨by simp [geminiSuccessRun], by simp [geminiSuccessRun],
          (oracle a).chunks.filter (fun c => !c.isEmpty), ?_⟩
        simp [geminiSuccessRun, geminiDataEvents]
      · have halt : a < k := by omega
        obtain ⟨e, he, hs⟩ := geminiRateLimited_elim (oracle a) (hRL a halt)
        obtain ⟨ihD, ihA, ds, ihE⟩ := ih (a + 1) (by omega) (by omega)
        rw [geminiLoop_retry oracle d m a r e he hs]
        refine ⟨?_, ?_, (oracle a).chunks.filter (fun c => !c.isEmpty) ++ ds, ?_⟩
        · have hka : k - a = (k - (a + 1)) + 1 := by omega
          rw [hka, List.range'_succ]
          simpa using ihD
        · simp only [ihA]
          omega
        · simp [geminiDataEvents, ihE, List.map_append, List.append_assoc]

theorem githubLoop_backoff (oracle : Nat → GitHubOutcome) (d m k : Nat)
    (hRL : ∀ i, i < k → githubRateLimited (oracle i) = true)
    (hk : githubOk (oracle k) = true) :
    ∀ r a, a ≤ k → k - a ≤ r →
      (githubLoop oracle d m a r).delays =
        (List.range' a (k - a)).map (fun i => d * m ^ i) ∧
      (githubLoop oracle d m a r).attempts = (k - a) + 1 ∧
      ∃ S : List Char,
        oracle k = GitHubOutcome.ok S ∧
        (githubLoop oracle d m a r).events =
          (chunkList 20 S).map StreamEvent.data ++ [StreamEvent.endEv true none] := by
  have hOk : ∃ S : List Char, oracle k = GitHubOutcome.ok S := by
    cases ho : oracle k with
    | ok content => exact ⟨content, rfl⟩
    | unexpected status msg => simp [githubOk, ho] at hk
    | thrown => simp [githubOk, ho] at hk
  obtain ⟨S, hS⟩ := hOk
  intro r
  induction r with
  | zero =>
      intro a hak hr
      have hae : a = k := by omega
      subst hae
      rw [githubLoop_ok oracle d m a 0 S hS]
      exact ⟨by simp, by simp, S, hS, rfl⟩
  | succ r ih =>
      intro a hak hr
      by_cases hae : a = k
      · subst hae
        rw [githubLoop_ok oracle d m a (r + 1) S hS]
        exact ⟨by simp, by simp, S, hS, rfl⟩
      · have halt : a < k := by omega
        obtain ⟨msg, he⟩ := githubRateLimited_elim (oracle a) (hRL a halt)
        obtain ⟨ihD, ihA, S', hS', ihE⟩ := ih (a + 1) (by omega) (by omega)
        rw [githubLoop_retry429 oracle d m a r msg he]
        refine ⟨?_, ?_, S', hS', ihE⟩
        · have hka : k - a = (k - (a + 1)) + 1 := by omega
          rw [hka, List.range'_succ]
          simpa using ihD
        · simp only [ihA]
          omega

/- ───────────────────────── Lemmas: template filling (C9) ────────────────── -/

theorem not_mem_append_of_not_mem (x : Char) (a b : List Char)
    (ha : x ∉ a) (hb : x ∉ b) : x ∉ a ++ b := by
  intro hm
  rcases List.mem_append.mp hm with hm | hm
  · exact ha hm
  · exact hb hm

/-- Filling a template of the form `pre ++ "{code}"` where `pre` contains no
brace: only the `{code}` placeholder is replaced (the input must be free of
braces and of ECMAScript replacement patterns, i.e. of `$`). -/
theorem fillTemplate_code_only (pre input errV : List Char)
    (hpre : ('{' : Char) ∉ pre) (h : ('{' : Char) ∉ input)
    (hd : ('$' : Char) ∉ input) :
    fillTemplate (pre ++ "{code}".data) input errV = pre ++ input := by
  unfold fillTemplate
  rw [show "{code}".data = '{' :: "code\x7d".data from rfl]
  rw [replaceFirst_fill_end '{' "code\x7d".data pre input hpre hd]
  have hmem : ('{' : Char) ∉ pre ++ input := not_mem_append_of_not_mem '{' pre input hpre h
  rw [show "{prompt}".data = '{' :: "prompt\x7d".data from rfl]
  rw [replaceFirst_head_not_mem '{' "prompt\x7d".data input (pre ++ input) hmem]
  rw [show "{error}".data = '{' :: "error\x7d".data from rfl]
  rw [replaceFirst_head_not_mem '{' "error\x7d".data errV (pre ++ input) hmem]

/-- Filling the `generate` template `pre ++ "{prompt}"`. -/
theorem fillTemplate_generate (input errV : List Char) (h : ('{' : Char) ∉ input)
    (hd : ('$' : Char) ∉ input) :
    fillTemplate "Generate code for: {prompt}".data input errV =
      "Generate code for: ".data ++ input := by
  unfold fillTemplate
  have h1 : replaceFirst "Generate code for: {prompt}".data "{code}".data input =
      "Generate code for: {prompt}".data :=
    replaceFirst_no_occur "{code}".data input "Generate code for: {prompt}".data (by decide)
  rw [h1]
  rw [show ("Generate code for: {prompt}".data : List Char) =
      "Generate code for: ".data ++ ('{' :: "prompt\x7d".data) by decide]
  rw [show "{prompt}".data = '{' :: "prompt\x7d".data from rfl]
  rw [replaceFirst_fill_end '{' "prompt\x7d".data "Generate code for: ".data input
    (by decide) hd]
  have hmem : ('{' : Char) ∉ "Generate code for: ".data ++ input :=
    not_mem_append_of_not_mem '{' "Generate code for: ".data input (by decide) h
  rw [show "{error}".data = '{' :: "error\x7d".data from rfl]
  rw [replaceFirst_head_not_mem '{' "error\x7d".data errV
    ("Generate code for: ".data ++ input) hmem]

/-- Filling the `fix` template: both `{code}` and `{error}` are replaced (the
input and the error text must be free of `$`, and the input free of braces). -/
theorem fillTemplate_fix (input errV : List Char) (h : ('{' : Char) ∉ input)
    (hd : ('$' : Char) ∉ input) (hde : ('$' : Char) ∉ errV) :
    fillTemplate "Fix the following code:\n\n{code}\n\nError: {error}".data input errV =
      "Fix the following code:\n\n".data ++ (input ++ ("\n\nError: ".data ++ errV)) := by
  unfold fillTemplate
  have h1 : replaceFirst "Fix the following code:\n\n{code}\n\nError: {error}".data
      "{code}".data input =
      "Fix the following code:\n\n".data ++
        (input ++ ("\n\nError: ".data ++ "{error}".data)) := by
    rw [show ("Fix the following code:\n\n{code}\n\nError: {error}".data : List Char) =
        "Fix the following code:\n\n".data ++
          (('{' :: "code\x7d".data) ++ ("\n\nError: ".data ++ "{error}".data)) by decide]
    rw [show "{code}".data = '{' :: "code\x7d".data from rfl]
    rw [replaceFirst_fill '{' "code\x7d".data ("\n\nError: ".data ++ "{error}".data)
      "Fix the following code:\n\n".data input (by decide) hd]
  rw [h1]
  have h2 : replaceFirst
      ("Fix the following code:\n\n".data ++ (input ++ ("\n\nError: ".data ++ "{error}".data)))
      "{prompt}".data input =
      "Fix the following code:\n\n".data ++
        (input ++ ("\n\nError: ".data ++ "{error}".data)) := by
    rw [show "{prompt}".data = '{' :: "prompt\x7d".data from rfl]
    unfold replaceFirst
    rw [replaceFirstFrom_append '{' "prompt\x7d".data input
      (input ++ ("\n\nError: ".data ++ "{error}".data)) "Fix the following code:\n\n".data []
      (by decide)]
    rw [replaceFirstFrom_append '{' "prompt\x7d".data input
      ("\n\nError: ".data ++ "{error}".data) input
      ([] ++ "Fix the following code:\n\n".data) h]
    rw [replaceFirstFrom_no_occur ('{' :: "prompt\x7d".data) input
      ("\n\nError: ".data ++ "{error}".data)
      (([] ++ "Fix the following code:\n\n".data) ++ input) (by decide)]
    simp [List.append_assoc]
  rw [h2]
  rw [show "{error}".data = '{' :: "error\x7d".data from rfl]
  unfold replaceFirst
  rw [replaceFirstFrom_append '{' "error\x7d".data errV
    (input ++ ("\n\nError: ".data ++ ('{' :: "error\x7d".data)))
    "Fix the following code:\n\n".data [] (by decide)]
  rw [replaceFirstFrom_append '{' "error\x7d".data errV
    ("\n\nError: ".data ++ ('{' :: "error\x7d".data)) input
    ([] ++ "Fix the following code:\n\n".data) h]
  rw [replaceFirstFrom_append '{' "error\x7d".data errV ('{' :: "error\x7d".data)
    "\n\nError: ".data (([] ++ "Fix the following code:\n\n".data) ++ input) (by decide)]
  rw [replaceFirstFrom_match_end '{' "error\x7d".data
    ((([] ++ "Fix the following code:\n\n".data) ++ input) ++ "\n\nError: ".data) errV]
  rw [getSubstitution_no_dollar ('{' :: "error\x7d".data)
    ((([] ++ "Fix the following code:\n\n".data) ++ input) ++ "\n\nError: ".data) [] errV hde]
  simp [List.append_assoc]

/-- `assemblePrompt` in terms of the filled prompt. -/
theorem assemblePrompt_eq_block (t input p : List Char) (ctx : Ctx)
    (hfill : fillTemplate t input (jsOr ctx.error []) = p) :
    assemblePrompt t input ctx =
      (if jsOr ctx.fileContent [] ≠ [] ∧ occursIn (jsOr ctx.fileContent []) p = false then
        p ++ "\n\nFile: ".data ++ jsOr ctx.fileName [] ++ "\n```".data ++
          jsOr ctx.language "typescript".data ++ "\n".data ++ jsOr ctx.fileContent [] ++
          "\n```".data
      else p) := by
  unfold assemblePrompt
  dsimp only
  rw [hfill]

/-- `specAssembledPrompt` in terms of the claim-side filled prompt. -/
theorem specAssembledPrompt_eq (cmd input q : List Char) (ctx : Ctx)
    (hq : specFilledPrompt cmd input (jsOr ctx.error []) = some q) :
    specAssembledPrompt cmd input ctx =
      some (if jsOr ctx.fileContent [] ≠ [] ∧ occursIn (jsOr ctx.fileContent []) q = false then
        q ++ "\n\nFile: ".data ++ jsOr ctx.fileName [] ++ "\n```".data ++
          jsOr ctx.language "typescript".data ++ "\n".data ++ jsOr ctx.fileContent [] ++
          "\n```".data
      else q) := by
  unfold specAssembledPrompt
  rw [hq]
  rfl

/-- Bridge used in each command case of the amended C9. -/
theorem some_assemble_eq_spec (t cmd input p : List Char) (ctx : Ctx)
    (hfill : fillTemplate t input (jsOr ctx.error []) = p)
    (hq : specFilledPrompt cmd input (jsOr ctx.error []) = some p) :
    some (assemblePrompt t input ctx) = specAssembledPrompt cmd input ctx := by
  rw [assemblePrompt_eq_block t input p ctx hfill, specAssembledPrompt_eq cmd input p ctx hq]

/- ───────────────────────── Run projections ──────────────────────────────── -/

theorem geminiRun_events (oracle : Nat → GeminiOutcome) (cmd : List Char) :
    (geminiRun oracle cmd).events =
      StreamEvent.start cmd ::
        (geminiLoop oracle AI_RETRY_CONFIG.initialDelayMs AI_RETRY_CONFIG.backoffMultiplier 0
          AI_RETRY_CONFIG.maxRetries).events := rfl

theorem geminiRun_delays (oracle : Nat → GeminiOutcome) (cmd : List Char) :
    (geminiRun oracle cmd).delays =
      (geminiLoop oracle AI_RETRY_CONFIG.initialDelayMs AI_RETRY_CONFIG.backoffMultiplier 0
        AI_RETRY_CONFIG.maxRetries).delays := rfl

theorem geminiRun_attempts (oracle : Nat → GeminiOutcome) (cmd : List Char) :
    (geminiRun oracle cmd).attempts =
      (geminiLoop oracle AI_RETRY_CONFIG.initialDelayMs AI_RETRY_CONFIG.backoffMultiplier 0
        AI_RETRY_CONFIG.maxRetries).attempts := rfl

theorem githubRun_events (oracle : Nat → GitHubOutcome) (cmd : List Char) :
    (githubRun oracle cmd).events =
      StreamEvent.start cmd ::
        (githubLoop oracle AI_RETRY_CONFIG.initialDelayMs AI_RETRY_CONFIG.backoffMultiplier 0
          AI_RETRY_CONFIG.maxRetries).events := rfl

theorem githubRun_delays (oracle : Nat → GitHubOutcome) (cmd : List Char) :
    (githubRun oracle cmd).delays =
      (githubLoop oracle AI_RETRY_CONFIG.initialDelayMs AI_RETRY_CONFIG.backoffMultiplier 0
        AI_RETRY_CONFIG.maxRetries).delays := rfl

theorem githubRun_attempts (oracle : Nat → GitHubOutcome) (cmd : List Char) :
    (githubRun oracle cmd).attempts =
      (githubLoop oracle AI_RETRY_CONFIG.initialDelayMs AI_RETRY_CONFIG.backoffMultiplier 0
        AI_RETRY_CONFIG.maxRetries).attempts := rfl

/- ───────────────────────── Claim theorems ───────────────────────────────── -/

/-- Claim C1, counterexample.  The claim states that only rate-limit failures
are ever retried, and that any other provider-side failure is surfaced
immediately as `end{success:false}`.  In the GitHub Models branch a thrown
exception (here at attempt 0, not a 429 rate-limit signal) is retried: the
relay performs a second attempt instead of one, and the stream ends with
`end{success:true}` rather than the immediate `end{success:false}` the claim
requires. -/
theorem claim_C1_counterexample :
    (githubRun (fun n => if n = 0 then GitHubOutcome.thrown else GitHubOutcome.ok "ok".data)
        "explain".data).attempts = 2 ∧
    (githubRun (fun n => if n = 0 then GitHubOutcome.thrown else GitHubOutcome.ok "ok".data)
        "explain".data).attempts ≠ 1 ∧
    (githubRun (fun n => if n = 0 then GitHubOutcome.thrown else GitHubOutcome.ok "ok".data)
        "explain".data).events =
      [StreamEvent.start "explain".data, StreamEvent.data "ok".data,
        StreamEvent.endEv true none] := by
  decide

/-- Claim C1, amended: in the Gemini branch any caught error whose status is
not 429 is surfaced immediately as a terminal `end{success:false}` with a
single attempt, and in the GitHub Models branch an unexpected HTTP response
whose status is not `'429'` is surfaced the same way; however, a thrown
exception in the GitHub Models branch is retried (one extra attempt) whenever
retry attempts remain, regardless of its cause. -/
theorem claim_C1_amended :
    (∀ (oracle : Nat → GeminiOutcome) (d m a r : Nat) (e : GeminiErr),
      (oracle a).error = some e → e.status ≠ some 429 →
      (geminiLoop oracle d m a r).attempts = 1 ∧
      (geminiLoop oracle d m a r).events =
        geminiDataEvents (oracle a).chunks ++
          [StreamEvent.endEv false (some (geminiErrMessage e))]) ∧
    (∀ (oracle : Nat → GitHubOutcome) (d m a r : Nat) (status : List Char)
        (msg : Option (List Char)),
      oracle a = GitHubOutcome.unexpected status msg → status ≠ "429".data →
      (githubLoop oracle d m a r).attempts = 1 ∧
      (githubLoop oracle d m a r).events =
        [StreamEvent.endEv false (some (githubErrMessage status msg))]) ∧
    (∀ (oracle : Nat → GitHubOutcome) (d m a r : Nat),
      oracle a = GitHubOutcome.thrown →
      (githubLoop oracle d m a (r + 1)).attempts =
        (githubLoop oracle d m (a + 1) r).attempts + 1) := by
  refine ⟨?_, ?_, ?_⟩
  · intro oracle d m a r e he hs
    rw [geminiLoop_fail oracle d m a r e he hs]
    exact ⟨rfl, rfl⟩
  · intro oracle d m a r status msg hu hs
    rw [githubLoop_unexpected_non429 oracle d m a r status msg hu hs]
    exact ⟨rfl, rfl⟩
  · intro oracle d m a r ht
    rw [githubLoop_thrown_retry oracle d m a r ht]

/-- Witness for the amended C1: a Gemini attempt failing with status 500 is
not retried and terminates with `end{success:false}` at once. -/
theorem claim_C1_amended_witness :
    (geminiLoop (fun _ => ⟨[], some ⟨some 500, some "boom".data⟩⟩) 2000 2 0 3).attempts = 1 ∧
    (geminiLoop (fun _ => ⟨[], some ⟨some 500, some "boom".data⟩⟩) 2000 2 0 3).events =
      geminiDataEvents ((fun _ : Nat => (⟨[], some ⟨some 500, some "boom".data⟩⟩ :
          GeminiOutcome)) 0).chunks ++
        [StreamEvent.endEv false
          (some (geminiErrMessage ⟨some 500, some "boom".data⟩))] :=
  claim_C1_amended.1 (fun _ => ⟨[], some ⟨some 500, some "boom".data⟩⟩) 2000 2 0 3
    ⟨some 500, some "boom".data⟩ rfl (by decide)

/-- Claim C2: once a stream is opened, the emitted sequence is exactly one
`start`, then zero or more `data` events, then exactly one terminal `end`,
with nothing after it — in both the Gemini and the GitHub Models branch, for
every provider behaviour (success or failure). -/
theorem claim_C2_event_sequence (gOracle : Nat → GeminiOutcome)
    (ghOracle : Nat → GitHubOutcome) (cmd : List Char) :
    (∃ (ds : List (List Char)) (b : Bool) (e : Option (List Char)),
      (geminiRun gOracle cmd).events =
        StreamEvent.start cmd :: (ds.map StreamEvent.data ++ [StreamEvent.endEv b e])) ∧
    (∃ (ds : List (List Char)) (b : Bool) (e : Option (List Char)),
      (githubRun ghOracle cmd).events =
        StreamEvent.start cmd :: (ds.map StreamEvent.data ++ [StreamEvent.endEv b e])) := by
  constructor
  · obtain ⟨ds, b, e, h⟩ := geminiLoop_shape gOracle AI_RETRY_CONFIG.initialDelayMs
      AI_RETRY_CONFIG.backoffMultiplier AI_RETRY_CONFIG.maxRetries 0
    exact ⟨ds, b, e, by rw [geminiRun_events, h]⟩
  · obtain ⟨ds, b, e, h⟩ := githubLoop_shape ghOracle AI_RETRY_CONFIG.initialDelayMs
      AI_RETRY_CONFIG.backoffMultiplier AI_RETRY_CONFIG.maxRetries 0
    exact ⟨ds, b, e, by rw [githubRun_events, h]⟩

/-- Claim C3: when the GitHub Models provider returns a complete string `S`
(first attempt), the relay emits the successive 20-character slices of `S` in
order as `data` events followed by `end{success:true}`; the concatenation of
all slices is exactly `S`, every slice except possibly the last has length
exactly 20, and every slice is non-empty and no longer than 20. -/
theorem claim_C3_chunked_fidelity (ghOracle : Nat → GitHubOutcome) (cmd S : List Char)
    (h : ghOracle 0 = GitHubOutcome.ok S) :
    (githubRun ghOracle cmd).events =
      StreamEvent.start cmd ::
        ((chunkList 20 S).map StreamEvent.data ++ [StreamEvent.endEv true none]) ∧
    (chunkList 20 S).flatten = S ∧
    (∀ ch ∈ (chunkList 20 S).dropLast, ch.length = 20) ∧
    (∀ ch ∈ chunkList 20 S, ch.length ≤ 20 ∧ ch ≠ []) := by
  refine ⟨?_, chunkList_flatten S, chunkList_dropLast S, chunkList_mem S⟩
  rw [githubRun_events, githubLoop_ok ghOracle AI_RETRY_CONFIG.initialDelayMs
    AI_RETRY_CONFIG.backoffMultiplier 0 AI_RETRY_CONFIG.maxRetries S h]

/-- Witness for C3 at a concrete 26-character response. -/
theorem claim_C3_witness :
    (githubRun (fun _ => GitHubOutcome.ok "abcdefghijklmnopqrstuvwxyz".data)
        "explain".data).events =
      StreamEvent.start "explain".data ::
        ((chunkList 20 "abcdefghijklmnopqrstuvwxyz".data).map StreamEvent.data ++
          [StreamEvent.endEv true none]) ∧
    (chunkList 20 "abcdefghijklmnopqrstuvwxyz".data).flatten =
      "abcdefghijklmnopqrstuvwxyz".data ∧
    (∀ ch ∈ (chunkList 20 "abcdefghijklmnopqrstuvwxyz".data).dropLast, ch.length = 20) ∧
    (∀ ch ∈ chunkList 20 "abcdefghijklmnopqrstuvwxyz".data, ch.length ≤ 20 ∧ ch ≠ []) :=
  claim_C3_chunked_fidelity (fun _ => GitHubOutcome.ok "abcdefghijklmnopqrstuvwxyz".data)
    "explain".data "abcdefghijklmnopqrstuvwxyz".data rfl

/-- Claim C4: when the provider signals rate limiting on every attempt (more
than `maxRetries` times), the relay performs exactly `maxRetries + 1` outbound
attempts and the stream terminates with `end{success:false}` — in both
branches. -/
theorem claim_C4_retry_exhaustion (gOracle : Nat → GeminiOutcome)
    (ghOracle : Nat → GitHubOutcome) (cmd : List Char)
    (hg : ∀ i, i ≤ AI_RETRY_CONFIG.maxRetries → geminiRateLimited (gOracle i) = true)
    (hh : ∀ i, i ≤ AI_RETRY_CONFIG.maxRetries → githubRateLimited (ghOracle i) = true) :
    ((geminiRun gOracle cmd).attempts = AI_RETRY_CONFIG.maxRetries + 1 ∧
      ∃ (ds : List (List Char)) (msg : List Char),
        (geminiRun gOracle cmd).events =
          StreamEvent.start cmd ::
            (ds.map StreamEvent.data ++ [StreamEvent.endEv false (some msg)])) ∧
    ((githubRun ghOracle cmd).attempts = AI_RETRY_CONFIG.maxRetries + 1 ∧
      ∃ msg : List Char,
        (githubRun ghOracle cmd).events =
          [StreamEvent.start cmd, StreamEvent.endEv false (some msg)]) := by
  obtain ⟨hA, ds, msg, hE⟩ := geminiLoop_allRateLimited gOracle AI_RETRY_CONFIG.initialDelayMs
    AI_RETRY_CONFIG.backoffMultiplier AI_RETRY_CONFIG.maxRetries 0 (fun i hi => hg i (by omega))
  obtain ⟨hA2, msg2, hE2⟩ := githubLoop_allRateLimited ghOracle AI_RETRY_CONFIG.initialDelayMs
    AI_RETRY_CONFIG.backoffMultiplier AI_RETRY_CONFIG.maxRetries 0 (fun i hi => hh i (by omega))
  refine ⟨⟨?_, ds, msg, ?_⟩, ?_, msg2, ?_⟩
  · rw [geminiRun_attempts, hA]
  · rw [geminiRun_events, hE]
  · rw [githubRun_attempts, hA2]
  · rw [githubRun_events, hE2]

/-- Witness for C4: constant-429 oracles make exactly 4 attempts (maxRetries 3)
and end with failure, in both branches. -/
theorem claim_C4_witness :
    ((geminiRun (fun _ => ⟨[], some ⟨some 429, none⟩⟩) "explain".data).attempts =
        AI_RETRY_CONFIG.maxRetries + 1 ∧
      ∃ (ds : List (List Char)) (msg : List Char),
        (geminiRun (fun _ => ⟨[], some ⟨some 429, none⟩⟩) "explain".data).events =
          StreamEvent.start "explain".data ::
            (ds.map StreamEvent.data ++ [StreamEvent.endEv false (some msg)])) ∧
    ((githubRun (fun _ => GitHubOutcome.unexpected "429".data none) "explain".data).attempts =
        AI_RETRY_CONFIG.maxRetries + 1 ∧
      ∃ msg : List Char,
        (githubRun (fun _ => GitHubOutcome.unexpected "429".data none) "explain".data).events =
          [StreamEvent.start "explain".data, StreamEvent.endEv false (some msg)]) :=
  claim_C4_retry_exhaustion (fun _ => ⟨[], some ⟨some 429, none⟩⟩)
    (fun _ => GitHubOutcome.unexpected "429".data none) "explain".data
    (fun _ _ => rfl) (fun _ _ => rfl)

/-- Claim C5: when the provider rate-limits exactly `k ≤ maxRetries` times and
then succeeds, the relay waits `initialDelay * multiplier ^ 0, ...,
initialDelay * multiplier ^ (k-1)` milliseconds between consecutive attempts,
in that exact order (no jitter), and the stream still ends with exactly one
`end{success:true}` — in both branches, with the configured defaults
2000 ms and multiplier 2. -/
theorem claim_C5_backoff_schedule (gOracle : Nat → GeminiOutcome)
    (ghOracle : Nat → GitHubOutcome) (cmd : List Char) (k : Nat)
    (hk : k ≤ AI_RETRY_CONFIG.maxRetries)
    (hgRL : ∀ i, i < k → geminiRateLimited (gOracle i) = true)
    (hgOk : (gOracle k).error = none)
    (hhRL : ∀ i, i < k → githubRateLimited (ghOracle i) = true)
    (hhOk : githubOk (ghOracle k) = true) :
    ((geminiRun gOracle cmd).delays =
        (List.range k).map (fun i =>
          AI_RETRY_CONFIG.initialDelayMs * AI_RETRY_CONFIG.backoffMultiplier ^ i) ∧
      (geminiRun gOracle cmd).attempts = k + 1 ∧
      ∃ ds : List (List Char),
        (geminiRun gOracle cmd).events =
          StreamEvent.start cmd ::
            (ds.map StreamEvent.data ++ [StreamEvent.endEv true none])) ∧
    ((githubRun ghOracle cmd).delays =
        (List.range k).map (fun i =>
          AI_RETRY_CONFIG.initialDelayMs * AI_RETRY_CONFIG.backoffMultiplier ^ i) ∧
      (githubRun ghOracle cmd).attempts = k + 1 ∧
      ∃ S : List Char, ghOracle k = GitHubOutcome.ok S ∧
        (githubRun ghOracle cmd).events =
          StreamEvent.start cmd ::
            ((chunkList 20 S).map StreamEvent.data ++ [StreamEvent.endEv true none])) := by
  obtain ⟨hD, hA, ds, hE⟩ := geminiLoop_backoff gOracle AI_RETRY_CONFIG.initialDelayMs
    AI_RETRY_CONFIG.backoffMultiplier k hgRL hgOk AI_RETRY_CONFIG.maxRetries 0
    (by omega) (by omega)
  obtain ⟨hD2, hA2, S, hS, hE2⟩ := githubLoop_backoff ghOracle AI_RETRY_CONFIG.initialDelayMs
    AI_RETRY_CONFIG.backoffMultiplier k hhRL hhOk AI_RETRY_CONFIG.maxRetries 0
    (by omega) (by omega)
  refine ⟨⟨?_, ?_, ds, ?_⟩, ?_, ?_, S, hS, ?_⟩
  · rw [geminiRun_delays, hD, Nat.sub_zero, List.range_eq_range']
  · rw [geminiRun_attempts, hA, Nat.sub_zero]
  · rw [geminiRun_events, hE]
  · rw [githubRun_delays, hD2, Nat.sub_zero, List.range_eq_range']
  · rw [githubRun_attempts, hA2, Nat.sub_zero]
  · rw [githubRun_events, hE2]

/-- Witness for C5 with `k = 3`: the waits are exactly 2000, 4000, 8000 ms and
both streams end successfully. -/
theorem claim_C5_witness :
    ((geminiRun (fun i => if i < 3 then ⟨[], some ⟨some 429, none⟩⟩ else ⟨["done".data], none⟩)
          "explain".data).delays =
        (List.range 3).map (fun i =>
          AI_RETRY_CONFIG.initialDelayMs * AI_RETRY_CONFIG.backoffMultiplier ^ i) ∧
      (geminiRun (fun i => if i < 3 then ⟨[], some ⟨some 429, none⟩⟩ else ⟨["done".data], none⟩)
          "explain".data).attempts = 3 + 1 ∧
      ∃ ds : List (List Char),
        (geminiRun (fun i => if i < 3 then ⟨[], some ⟨some 429, none⟩⟩
            else ⟨["done".data], none⟩) "explain".data).events =
          StreamEvent.start "explain".data ::
            (ds.map StreamEvent.data ++ [StreamEvent.endEv true none])) ∧
    ((githubRun (fun i => if i < 3 then GitHubOutcome.unexpected "429".data none
          else GitHubOutcome.ok "done".data) "explain".data).delays =
        (List.range 3).map (fun i =>
          AI_RETRY_CONFIG.initialDelayMs * AI_RETRY_CONFIG.backoffMultiplier ^ i) ∧
      (githubRun (fun i => if i < 3 then GitHubOutcome.unexpected "429".data none
          else GitHubOutcome.ok "done".data) "explain".data).attempts = 3 + 1 ∧
      ∃ S : List Char,
        (fun i => if i < 3 then GitHubOutcome.unexpected "429".data none
          else GitHubOutcome.ok "done".data) 3 = GitHubOutcome.ok S ∧
        (githubRun (fun i => if i < 3 then GitHubOutcome.unexpected "429".data none
            else GitHubOutcome.ok "done".data) "explain".data).events =
          StreamEvent.start "explain".data ::
            ((chunkList 20 S).map StreamEvent.data ++ [StreamEvent.endEv true none])) :=
  claim_C5_backoff_schedule
    (fun i => if i < 3 then ⟨[], some ⟨some 429, none⟩⟩ else ⟨["done".data], none⟩)
    (fun i => if i < 3 then GitHubOutcome.unexpected "429".data none
      else GitHubOutcome.ok "done".data)
    "explain".data 3 (by decide) (by decide) (by decide) (by decide) (by decide)

/-- Claim C6: the command `fix` pins the temperature sent to the provider to
exactly 0.2 in both branches; every other command uses the provider's
configured default temperature — 0.7 for Gemini and 0.4 for GitHub Models
(the literal 0.4 in the GitHub call equals the configured provider default). -/
theorem claim_C6_temperature (model cmd : List Char) (hc : cmd ≠ "fix".data) :
    (geminiGenerationConfig "fix".data).temperature = 0.2 ∧
    (githubRequestParams model "fix".data).temperature = 0.2 ∧
    (geminiGenerationConfig cmd).temperature = AI_PROVIDERS_gemini.temperature ∧
    (githubRequestParams model cmd).temperature = AI_PROVIDERS_github.temperature ∧
    AI_PROVIDERS_gemini.temperature = 0.7 ∧
    AI_PROVIDERS_github.temperature = 0.4 := by
  refine ⟨by simp [geminiGenerationConfig], by simp [githubRequestParams], ?_, ?_, rfl, rfl⟩
  · simp [geminiGenerationConfig, hc]
  · simp [githubRequestParams, hc]
    rfl

/-- Witness for C6 at the non-fix command `explain`. -/
theorem claim_C6_witness :
    (geminiGenerationConfig "fix".data).temperature = 0.2 ∧
    (githubRequestParams "mistral-ai/Codestral-2501".data "fix".data).temperature = 0.2 ∧
    (geminiGenerationConfig "explain".data).temperature = AI_PROVIDERS_gemini.temperature ∧
    (githubRequestParams "mistral-ai/Codestral-2501".data "explain".data).temperature =
      AI_PROVIDERS_github.temperature ∧
    AI_PROVIDERS_gemini.temperature = 0.7 ∧
    AI_PROVIDERS_github.temperature = 0.4 :=
  claim_C6_temperature "mistral-ai/Codestral-2501".data "explain".data (by decide)

/-- Claim C7, counterexample.  The claim states that every request with an
unknown or missing command id receives HTTP 400 `Invalid command`.  But the
handler checks the provider configuration before validating the command, so a
`frobnicate` request arriving while no provider key is configured receives the
HTTP 500 configuration error instead of the claimed HTTP 400. -/
theorem claim_C7_counterexample :
    (POST (CookieState.session 10) 0 ⟨[], []⟩
        (some ⟨some "frobnicate".data, none, none, none⟩)
        (fun _ => ⟨[], none⟩) (fun _ => GitHubOutcome.ok [])).fst =
      PostResult.errorResponse 500
        "No AI provider configured. Add GITHUB_TOKEN or GEMINI_API_KEY to your .env file.".data ∧
    (POST (CookieState.session 10) 0 ⟨[], []⟩
        (some ⟨some "frobnicate".data, none, none, none⟩)
        (fun _ => ⟨[], none⟩) (fun _ => GitHubOutcome.ok [])).fst ≠
      PostResult.errorResponse 400 "Invalid command".data := by
  decide

/-- Claim C7, amended: for every authenticated request with a parseable body
and a configured provider, a missing, empty or unknown command id yields the
immediate HTTP 400 `Invalid command` error response, with no stream opened
and zero outbound provider attempts (when no provider is configured, the
HTTP 500 configuration error takes precedence instead). -/
theorem claim_C7_amended (cookie : CookieState) (now : Int) (env : Env) (b : RequestBody)
    (gOracle : Nat → GeminiOutcome) (ghOracle : Nat → GitHubOutcome)
    (hs : getSession cookie now ≠ none)
    (hcfg : (getAIConfig env b.provider).apiKey ≠ [])
    (hcmd : invalidCommandField b.command) :
    POST cookie now env (some b) gOracle ghOracle =
      (PostResult.errorResponse 400 "Invalid command".data, cookie) ∧
    providerAttempts (POST cookie now env (some b) gOracle ghOracle).fst = 0 := by
  have h1 : POST cookie now env (some b) gOracle ghOracle =
      (PostResult.errorResponse 400 "Invalid command".data, cookie) := by
    cases hgs : getSession cookie now with
    | none => exact absurd hgs hs
    | some s =>
        unfold POST
        rw [hgs]
        dsimp only
        rw [if_neg hcfg]
        cases hbc : b.command with
        | none => rfl
        | some c =>
            have hcmd' : c = [] ∨ commandTemplate c = none := by
              have := hcmd
              rw [hbc] at this
              simpa [invalidCommandField] using this
            dsimp only
            by_cases hce : c = []
            · rw [if_pos hce]
            · rw [if_neg hce]
              rw [hcmd'.resolve_left hce]
  exact ⟨h1, by rw [h1]; rfl⟩

/-- Witness for the amended C7: the unknown command id `frobnicate` with a
configured Gemini key is rejected with HTTP 400 and no provider attempt. -/
theorem claim_C7_amended_witness :
    POST (CookieState.session 10) 0 ⟨"k".data, []⟩
        (some ⟨some "frobnicate".data, none, none, none⟩)
        (fun _ => ⟨[], none⟩) (fun _ => GitHubOutcome.ok []) =
      (PostResult.errorResponse 400 "Invalid command".data, CookieState.session 10) ∧
    providerAttempts (POST (CookieState.session 10) 0 ⟨"k".data, []⟩
        (some ⟨some "frobnicate".data, none, none, none⟩)
        (fun _ => ⟨[], none⟩) (fun _ => GitHubOutcome.ok [])).fst = 0 :=
  claim_C7_amended (CookieState.session 10) 0 ⟨"k".data, []⟩
    ⟨some "frobnicate".data, none, none, none⟩
    (fun _ => ⟨[], none⟩) (fun _ => GitHubOutcome.ok [])
    (by decide) (by decide) (Or.inr (by decide))

/-- Claim C8: every request without a valid, non-expired session — no cookie,
unparsable cookie, or current time strictly past `expiresAt` — receives the
immediate HTTP 401 `Not authenticated` response, before any stream is opened
and before any outbound provider attempt, and the cookie store is returned
unmodified; the invalid-session condition is exactly the disjunction of those
three cases. -/
theorem claim_C8_authentication (cookie : CookieState) (now : Int) (env : Env)
    (body : Option RequestBody) (gOracle : Nat → GeminiOutcome)
    (ghOracle : Nat → GitHubOutcome) (h : getSession cookie now = none) :
    POST cookie now env body gOracle ghOracle =
      (PostResult.errorResponse 401 "Not authenticated".data, cookie) ∧
    providerAttempts (POST cookie now env body gOracle ghOracle).fst = 0 ∧
    (getSession cookie now = none ↔
      cookie = CookieState.noCookie ∨ cookie = CookieState.malformed ∨
      ∃ t : Int, cookie = CookieState.session t ∧ now > t) := by
  have h1 : POST cookie now env body gOracle ghOracle =
      (PostResult.errorResponse 401 "Not authenticated".data, cookie) := by
    unfold POST
    rw [h]
  refine ⟨h1, by rw [h1]; rfl, ?_⟩
  cases cookie with
  | noCookie => simp [getSession]
  | malformed => simp [getSession]
  | session t =>
      by_cases hn : now > t
      · simp [getSession, hn]
      · simp [getSession, hn]

/-- Witness for C8: a request with no session cookie is rejected with 401. -/
theorem claim_C8_witness :
    POST CookieState.noCookie 0 ⟨"k".data, []⟩
        (some ⟨some "explain".data, none, none, none⟩)
        (fun _ => ⟨[], none⟩) (fun _ => GitHubOutcome.ok []) =
      (PostResult.errorResponse 401 "Not authenticated".data, CookieState.noCookie) ∧
    providerAttempts (POST CookieState.noCookie 0 ⟨"k".data, []⟩
        (some ⟨some "explain".data, none, none, none⟩)
        (fun _ => ⟨[], none⟩) (fun _ => GitHubOutcome.ok [])).fst = 0 ∧
    (getSession CookieState.noCookie 0 = none ↔
      CookieState.noCookie = CookieState.noCookie ∨
      CookieState.noCookie = CookieState.malformed ∨
      ∃ t : Int, CookieState.noCookie = CookieState.session t ∧ (0 : Int) > t) :=
  claim_C8_authentication CookieState.noCookie 0 ⟨"k".data, []⟩
    (some ⟨some "explain".data, none, none, none⟩)
    (fun _ => ⟨[], none⟩) (fun _ => GitHubOutcome.ok []) rfl

/-- Claim C9, counterexample.  The claim states the prompt is the command
template with its placeholders filled from `input` and `context.error`.  But
the source performs three sequential `String.replace` calls, which both
substitute placeholder text occurring inside the user input and apply the
ECMAScript replacement patterns to the user-controlled replacement string.
First instance: for command `explain` with input `"{error}"` and
`context.error = "E"`, the template fill puts `{error}` into the prompt and
the third replacement then rewrites it to `E`.  Second instance: input
`"A$&B"` (no brace at all) is spliced in with `$&` replaced by the matched
`{code}`, so the real prompt ends in `A{code}B` rather than `A$&B`; the last
conjunct exhibits the exact prompt the program produces there. -/
theorem claim_C9_counterexample :
    (some (assemblePrompt "Explain the following code:\n\n{code}".data "{error}".data
        ⟨none, none, none, some "E".data⟩) ≠
      specAssembledPrompt "explain".data "{error}".data
        ⟨none, none, none, some "E".data⟩) ∧
    (some (assemblePrompt "Explain the following code:\n\n{code}".data "A$&B".data
        ⟨none, none, none, some "E".data⟩) ≠
      specAssembledPrompt "explain".data "A$&B".data ⟨none, none, none, some "E".data⟩) ∧
    assemblePrompt "Explain the following code:\n\n{code}".data "A$&B".data
        ⟨none, none, none, some "E".data⟩ =
      "Explain the following code:\n\nA{code}B".data := by
  decide

/-- Claim C9, amended: prompt assembly is a pure function of
`{command, input, context}` (hence deterministic), and for every input that
contains neither `'{'` nor `'$'`, with error text containing no `'$'`, the
assembled prompt is exactly the command template with its placeholders
filled from `input` and `context.error`, with the `File:` block appended
when `context.fileContent` is non-empty and not already contained in the
filled template.  (Inputs containing placeholder-like text are rewritten by
the later sequential replacements, and replacement strings containing the
ECMAScript patterns `$$`, `$&`, dollar-backquote or dollar-quote are
transformed by `GetSubstitution`, so the rule does not hold verbatim for
them.) -/
theorem claim_C9_amended (cmd t input : List Char) (ctx : Ctx)
    (ht : commandTemplate cmd = some t) (h : ('{' : Char) ∉ input)
    (hd : ('$' : Char) ∉ input) (hde : ('$' : Char) ∉ jsOr ctx.error []) :
    some (assemblePrompt t input ctx) = specAssembledPrompt cmd input ctx := by
  unfold commandTemplate at ht
  by_cases h1 : cmd = "explain".data
  · rw [if_pos h1] at ht
    have htt := Option.some.inj ht
    subst htt
    refine some_assemble_eq_spec _ cmd input
      ("Explain the following code:\n\n".data ++ input) ctx ?_ ?_
    · rw [show ("Explain the following code:\n\n{code}".data : List Char) =
          "Explain the following code:\n\n".data ++ "{code}".data by decide]
      exact fillTemplate_code_only "Explain the following code:\n\n".data input _
        (by decide) h hd
    · simp [specFilledPrompt, h1]
  rw [if_neg h1] at ht
  by_cases h2 : cmd = "generate".data
  · rw [if_pos h2] at ht
    have htt := Option.some.inj ht
    subst htt
    refine some_assemble_eq_spec _ cmd input ("Generate code for: ".data ++ input) ctx ?_ ?_
    · exact fillTemplate_generate input _ h hd
    · simp [specFilledPrompt, h1, h2]
  rw [if_neg h2] at ht
  by_cases h3 : cmd = "fix".data
  · rw [if_pos h3] at ht
    have htt := Option.some.inj ht
    subst htt
    refine some_assemble_eq_spec _ cmd input
      ("Fix the following code:\n\n".data ++
        (input ++ ("\n\nError: ".data ++ jsOr ctx.error []))) ctx ?_ ?_
    · exact fillTemplate_fix input _ h hd hde
    · simp [specFilledPrompt, h1, h2, h3, List.append_assoc]
  rw [if_neg h3] at ht
  by_cases h4 : cmd = "refactor".data
  · rw [if_pos h4] at ht
    have htt := Option.some.inj ht
    subst htt
    refine some_assemble_eq_spec _ cmd input
      ("Refactor the following code to be more efficient:\n\n".data ++ input) ctx ?_ ?_
    · rw [show ("Refactor the following code to be more efficient:\n\n{code}".data : List Char) =
          "Refactor the following code to be more efficient:\n\n".data ++ "{code}".data by decide]
      exact fillTemplate_code_only "Refactor the following code to be more efficient:\n\n".data
        input _ (by decide) h hd
    · simp [specFilledPrompt, h1, h2, h3, h4]
  rw [if_neg h4] at ht
  by_cases h5 : cmd = "test".data
  · rw [if_pos h5] at ht
    have htt := Option.some.inj ht
    subst htt
    refine some_assemble_eq_spec _ cmd input
      ("Generate unit tests for:\n\n".data ++ input) ctx ?_ ?_
    · rw [show ("Generate unit tests for:\n\n{code}".data : List Char) =
          "Generate unit tests for:\n\n".data ++ "{code}".data by decide]
      exact fillTemplate_code_only "Generate unit tests for:\n\n".data input _
        (by decide) h hd
    · simp [specFilledPrompt, h1, h2, h3, h4, h5]
  rw [if_neg h5] at ht
  by_cases h6 : cmd = "docs".data
  · rw [if_pos h6] at ht
    have htt := Option.some.inj ht
    subst htt
    refine some_assemble_eq_spec _ cmd input
      ("Generate documentation for:\n\n".data ++ input) ctx ?_ ?_
    · rw [show ("Generate documentation for:\n\n{code}".data : List Char) =
          "Generate documentation for:\n\n".data ++ "{code}".data by decide]
      exact fillTemplate_code_only "Generate documentation for:\n\n".data input _
        (by decide) h hd
    · simp [specFilledPrompt, h1, h2, h3, h4, h5, h6]
  rw [if_neg h6] at ht
  exact Option.noConfusion ht

/-- Witness for the amended C9 at command `fix` with a brace-free input, a
file context not contained in the prompt, and an error message. -/
theorem claim_C9_amended_witness :
    some (assemblePrompt "Fix the following code:\n\n{code}\n\nError: {error}".data
        "let x = 1".data ⟨some "a.ts".data, none, some "content".data, some "boom".data⟩) =
      specAssembledPrompt "fix".data "let x = 1".data
        ⟨some "a.ts".data, none, some "content".data, some "boom".data⟩ :=
  claim_C9_amended "fix".data "Fix the following code:\n\n{code}\n\nError: {error}".data
    "let x = 1".data ⟨some "a.ts".data, none, some "content".data, some "boom".data⟩
    (by decide) (by decide) (by decide) (by decide)

/- ───────────────────────── Lemmas: provider resolution (C10) ────────────── -/

theorem getAIConfigDefault_apiKey_iff (env : Env) :
    (getAIConfigDefault env).apiKey = [] ↔
      env.GEMINI_API_KEY = [] ∧ env.GITHUB_TOKEN = [] := by
  unfold getAIConfigDefault
  split_ifs with hg hh <;> simp_all

theorem getAIConfigDefault_provider_none (env : Env) :
    (getAIConfigDefault env).apiKey = [] → (getAIConfigDefault env).provider = none := by
  unfold getAIConfigDefault
  split_ifs with hg hh <;> simp_all

theorem getAIConfig_override_used (env : Env) (s : List Char)
    (hc : s ≠ [] ∧ providerKey env s ≠ []) :
    (getAIConfig env (some s)).apiKey ≠ [] := by
  unfold getAIConfig
  dsimp only
  rw [if_pos hc]
  by_cases hsg : s = "gemini".data
  · rw [if_pos hsg]
    have h2 := hc.2
    unfold providerKey at h2
    rwa [if_pos hsg] at h2
  · rw [if_neg hsg]
    have h2 := hc.2
    unfold providerKey at h2
    rw [if_neg hsg] at h2
    by_cases hsh : s = "github".data
    · rwa [if_pos hsh] at h2
    · rw [if_neg hsh] at h2
      exact absurd rfl h2

/-- Claim C10: `getAIConfig` never fails on any override — when the override
is missing, empty, unknown, or resolves to a provider with an empty key, it is
silently ignored and the resolution falls back to the fixed preference order
(Gemini first, then GitHub); the returned key is empty exactly when neither
provider is configured, and only then is the provider `null`. -/
theorem claim_C10_provider_resolution (env : Env) (p : Option (List Char)) :
    ((p = none ∨ ∃ s : List Char, p = some s ∧ (s = [] ∨ providerKey env s = [])) →
      getAIConfig env p = getAIConfigDefault env) ∧
    ((getAIConfig env p).apiKey = [] ↔
      env.GEMINI_API_KEY = [] ∧ env.GITHUB_TOKEN = []) ∧
    ((getAIConfig env p).apiKey = [] → (getAIConfig env p).provider = none) ∧
    (env.GEMINI_API_KEY ≠ [] →
      getAIConfigDefault env =
        ⟨env.GEMINI_API_KEY, AI_PROVIDERS_gemini.defaultModel, some ProviderId.gemini⟩) ∧
    (env.GEMINI_API_KEY = [] → env.GITHUB_TOKEN ≠ [] →
      getAIConfigDefault env =
        ⟨env.GITHUB_TOKEN, AI_PROVIDERS_github.defaultModel, some ProviderId.github⟩) := by
  refine ⟨?_, ?_, ?_, ?_, ?_⟩
  · intro hcase
    cases p with
    | none => rfl
    | some s =>
        rcases hcase with hnone | ⟨s', hps, hor⟩
        · exact Option.noConfusion hnone
        · have hss : s = s' := Option.some.inj hps
          subst hss
          unfold getAIConfig
          dsimp only
          rw [if_neg (by
            rcases hor with h | h
            · exact fun hcon => hcon.1 h
            · exact fun hcon => hcon.2 h)]
  · cases p with
    | none => exact getAIConfigDefault_apiKey_iff env
    | some s =>
        by_cases hc : s ≠ [] ∧ providerKey env s ≠ []
        · have hne := getAIConfig_override_used env s hc
          constructor
          · intro hk
            exact absurd hk hne
          · rintro ⟨hg, hgh⟩
            exfalso
            apply hc.2
            unfold providerKey
            split_ifs <;> simp [hg, hgh]
        · have heq : getAIConfig env (some s) = getAIConfigDefault env := by
            unfold getAIConfig
            dsimp only
            rw [if_neg hc]
          rw [heq]
          exact getAIConfigDefault_apiKey_iff env
  · cases p with
    | none => exact getAIConfigDefault_provider_none env
    | some s =>
        by_cases hc : s ≠ [] ∧ providerKey env s ≠ []
        · intro hk
          exact absurd hk (getAIConfig_override_used env s hc)
        · have heq : getAIConfig env (some s) = getAIConfigDefault env := by
            unfold getAIConfig
            dsimp only
            rw [if_neg hc]
          rw [heq]
          exact getAIConfigDefault_provider_none env
  · intro hg
    unfold getAIConfigDefault
    rw [if_pos hg]
  · intro hg hgh
    unfold getAIConfigDefault
    rw [if_neg (by simp [hg]), if_pos hgh]

/-- Witness for C10: a `github` override with no GitHub key configured is
ignored and resolution falls back to the configured Gemini provider. -/
theorem claim_C10_witness :
    getAIConfig ⟨"g".data, []⟩ (some "github".data) = getAIConfigDefault ⟨"g".data, []⟩ ∧
    getAIConfigDefault ⟨"g".data, []⟩ =
      ⟨"g".data, AI_PROVIDERS_gemini.defaultModel, some ProviderId.gemini⟩ :=
  ⟨(claim_C10_provider_resolution ⟨"g".data, []⟩ (some "github".data)).1
      (Or.inr ⟨"github".data, rfl, Or.inr (by decide)⟩),
    (claim_C10_provider_resolution ⟨"g".data, []⟩ (some "github".data)).2.2.2.1 (by decide)⟩
